import Mathlib

/-
Verification of the koftipy functional-utility library against its design
specification.  The Python source is shallowly embedded: each class's mutable
state becomes a Lean structure, each method a pure function that returns its
result together with the successor state, and raised exceptions become values
of an explicit error type.  Every definition below is a direct translation of
the cited Python code.
-/

set_option maxRecDepth 4096

namespace Koftipy

/-! ## Option model (src/koftipy/option.py) -/

/-- Value of an Option: Some(v) or the Nothing singleton
(src/koftipy/option.py, classes Some and _Nothing).  The payload type V is
arbitrary; Python's None is just one possible inhabitant of V, so Some(None)
is representable. -/
inductive OptVal (V : Type u) where
  | some (v : V)
  | nothing
  deriving DecidableEq

/-- Python exceptions raised by the embedded code. -/
inductive PyErr where
  | valueError (msg : String)
  deriving DecidableEq

/-- Option.is_defined (src/koftipy/option.py lines 442-443 and 464-465):
True on a Some, False on Nothing. -/
def OptVal.isDefined : OptVal V → Bool
  | .some _ => true
  | .nothing => false

/-- Option.get (src/koftipy/option.py lines 445-446 and 467-468): Some.get
returns the stored value; _Nothing.get raises ValueError("No value defined"). -/
def optionGet : OptVal V → Except PyErr V
  | .some v => .ok v
  | .nothing => .error (.valueError "No value defined")

/-- Identity of the object returned by an Option combinator: the receiver
itself (`return self`), an already-existing Option object that was passed in
or produced by a caller-supplied thunk (`return result`), a newly constructed
object (`Some(...)`), or the shared Nothing singleton literal. -/
inductive OptionRet (V : Type u) where
  | selfRef
  | given (o : OptVal V)
  | fresh (o : OptVal V)
  | nothingRef
  deriving DecidableEq

/-- The `default` argument of Option.or_else
(src/koftipy/option.py line 205): an Option, a bare value, or a thunk
returning either. -/
inductive OrElseArg (V : Type u) where
  | opt (o : OptVal V)
  | val (v : V)
  | supOpt (f : Unit → OptVal V)
  | supVal (f : Unit → V)

/-- Option.filter (src/koftipy/option.py lines 280-297):
`return self if self.is_defined() and p.test(self.get()) else Nothing`.
The second component is the receiver's state after the call (the method body
performs no assignment to self, so it is returned unchanged). -/
def optionFilter (o : OptVal V) (p : V → Bool) : OptionRet V × OptVal V :=
  match o with
  | .some v => if p v then (.selfRef, o) else (.nothingRef, o)
  | .nothing => (.nothingRef, o)

/-- Option.map (src/koftipy/option.py lines 232-246):
`return Nothing if self.is_empty() else Some(f(self.get()))`. -/
def optionMap (o : OptVal V) (f : V → U) : OptionRet U × OptVal V :=
  match o with
  | .nothing => (.nothingRef, o)
  | .some v => (.fresh (.some (f v)), o)

/-- Option.or_else (src/koftipy/option.py lines 205-230): returns self when
defined; otherwise evaluates the default (calling it if callable) and wraps
the result in Some only when it is not already an Option. -/
def optionOrElse (o : OptVal V) (d : OrElseArg V) : OptionRet V × OptVal V :=
  match o with
  | .some _ => (.selfRef, o)
  | .nothing =>
    match d with
    | .opt g => (.given g, o)
    | .supOpt f => (.given (f ()), o)
    | .val v => (.fresh (.some v), o)
    | .supVal f => (.fresh (.some (f ())), o)

/-- Modelled from the spec (section 3, OptionalValue lifecycle): the claim
that a combinator "always returns newly constructed instances (or the Absent
singleton)".  Used to compare the spec's words against the code. -/
def IsFreshOrNothing (r : OptionRet V) : Prop :=
  (∃ o, r = OptionRet.fresh o) ∨ r = OptionRet.nothingRef

/-! ## Predicate model (src/koftipy/predicate.py) -/

/-- Predicate combinator tree (src/koftipy/predicate.py): leaf tests and the
and/or/negate compositors.  _Custom wraps a bare callable. -/
inductive PredTree (V : Type u) where
  | custom (f : V → Bool)
  | andAll (ps : List (PredTree V))
  | orAny (ps : List (PredTree V))
  | negated (p : PredTree V)
  | alwaysTrue
  | neverTrue

/-- Predicate.test dispatch (src/koftipy/predicate.py): _And short-circuits
on the first False, _Or on the first True, _Negate inverts, _Always/_Never
are constant, _Custom calls the wrapped function. -/
def PredTree.test : PredTree V → V → Bool
  | .custom f, v => f v
  | .andAll ps, v => ps.attach.all (fun q => q.1.test v)
  | .orAny ps, v => ps.attach.any (fun q => q.1.test v)
  | .negated p, v => !(p.test v)
  | .alwaysTrue, _ => true
  | .neverTrue, _ => false
termination_by p _ => sizeOf p
decreasing_by
  all_goals simp_wf
  all_goals (have hq := List.sizeOf_lt_of_mem q.2; omega)

/-- Argument of Predicate.of (src/koftipy/predicate.py line 16): either an
object that is already a Predicate or a bare callable. -/
inductive PredArg (V : Type u) where
  | pred (p : PredTree V)
  | fn (f : V → Bool)

/-- Predicate.of (src/koftipy/predicate.py lines 15-20): returns the argument
itself when it is already a Predicate, otherwise wraps it in _Custom. -/
def predicateOf : PredArg V → PredTree V
  | .pred p => p
  | .fn f => .custom f

/-! ## Single-element iterators -/

/-- The _SingleIterator of the top-level module src/koftipy/iterator.py
(lines 20-25): it stores only the element and has NO consumed flag. -/
structure RootSingle (V : Type u) where
  element : V
  deriving DecidableEq

/-- __next__ of the top-level _SingleIterator (src/koftipy/iterator.py
lines 24-25): `return self.__element` unconditionally — it never raises
StopIteration.  The first component is some-value on success, none models a
StopIteration signal. -/
def rootSingleNext (s : RootSingle V) : Option V × RootSingle V :=
  (some s.element, s)

/-- Result of the (n+1)-th advance on a top-level single iterator. -/
def rootSingleRun (s : RootSingle V) : Nat → Option V
  | 0 => (rootSingleNext s).1
  | n + 1 => rootSingleRun (rootSingleNext s).2 n

/-- The _SingleIterator of src/koftipy/collection/iterator.py
(lines 194-208): element plus a consumed flag, initially False. -/
structure CollSingle (V : Type u) where
  element : V
  consumed : Bool
  deriving DecidableEq

/-- Iterator.of(x) with a single argument
(src/koftipy/collection/iterator.py line 54): _SingleIterator(first). -/
def mkCollSingle (x : V) : CollSingle V := ⟨x, false⟩

/-- __next__ of the collection _SingleIterator
(src/koftipy/collection/iterator.py lines 203-208): raise StopIteration when
consumed, else set consumed and return the element. -/
def collSingleNext (s : CollSingle V) : Option V × CollSingle V :=
  if s.consumed then (none, s)
  else (some s.element, ⟨s.element, true⟩)

/-- Result of the (n+1)-th advance on a collection single iterator. -/
def collSingleRun (s : CollSingle V) : Nat → Option V
  | 0 => (collSingleNext s).1
  | n + 1 => collSingleRun (collSingleNext s).2 n

/-! ## Concatenated iterator (src/koftipy/collection/iterator.py lines 211-236)

Every finite sub-cursor is represented by the list of elements it has yet to
yield, so a source iterable of the concatenation is a `List V` and the queue
of not-yet-opened sources a `List (List V)`. -/

/-- State of a _ConcatIterator: the currently opened sub-cursor (none once
`__set_current_iterator` hit the end of the source queue) and the sources not
yet opened. -/
structure ConcatState (V : Type u) where
  current : Option (List V)
  rest : List (List V)
  deriving DecidableEq

/-- _ConcatIterator.__init__ plus the first __set_current_iterator call
(src/koftipy/collection/iterator.py lines 218-220, 232-236): open the first
source, or record exhaustion when there is none. -/
def mkConcat (ls : List (List V)) : ConcatState V :=
  match ls with
  | [] => ⟨none, []⟩
  | h :: t => ⟨some h, t⟩

/-- _ConcatIterator.__next__ (src/koftipy/collection/iterator.py
lines 222-230), with the current cursor and queue as separate arguments:
if current is None raise StopIteration; else take the next element of the
current cursor; on its StopIteration, open the next source
(__set_current_iterator) and retry via the recursive call `next(self)`.
The Option V result is the yielded element (none = StopIteration); the new
state is returned alongside because the mutations persist even when
StopIteration is raised. -/
def concatNextAux : Option (List V) → List (List V) → Option V × ConcatState V
  | none, rest => (none, ⟨none, rest⟩)
  | some (x :: xs), rest => (some x, ⟨some xs, rest⟩)
  | some [], [] => (none, ⟨none, []⟩)
  | some [], h :: t => concatNextAux (some h) t

/-- One advance on a _ConcatIterator. -/
def concatNext (st : ConcatState V) : Option V × ConcatState V :=
  concatNextAux st.current st.rest

/-- Result of the (n+1)-th advance on a _ConcatIterator. -/
def concatRun (st : ConcatState V) : Nat → Option V
  | 0 => (concatNext st).1
  | n + 1 => concatRun (concatNext st).2 n

/-- Number of nested `__next__` stack frames used by a single external
advance of a _ConcatIterator: each `return next(self)` retry
(src/koftipy/collection/iterator.py line 230) adds one frame.  The retry runs
even when __set_current_iterator just drained the source queue: in that case
the extra frame finds `self.__current is None` and raises StopIteration, so
an exhaustion-terminated advance from `some [], []` costs the outer frame
plus that one raising retry frame — 2 frames, not 1. -/
def concatDepthAux : Option (List V) → List (List V) → Nat
  | none, _ => 1
  | some (_ :: _), _ => 1
  | some [], [] => 2
  | some [], h :: t => 1 + concatDepthAux (some h) t

/-- Call-stack depth of a single advance starting from a given state. -/
def concatAdvanceDepth (st : ConcatState V) : Nat :=
  concatDepthAux st.current st.rest

/-- Elements a concat state has still to deliver, in order. -/
def cToList (st : ConcatState V) : List V :=
  (st.current.getD []) ++ st.rest.flatten

/-- Reachability invariant of _ConcatIterator: current is cleared only after
the source queue has been drained (__set_current_iterator sets current to
None exactly when next(self.__iterators) raises). -/
def ConcatInv (st : ConcatState V) : Prop :=
  st.current = none → st.rest = []

/-! ## Lazy, sequential semantics (src/koftipy/lazy.py and
src/koftipy/control/lazy.py — the two files are line-for-line identical in
the members modelled here)

The supplier is an arbitrary Python callable: it may carry mutable state of
its own (type σ, threaded through every invocation) and may raise (the
`Except E` result).  The instance state holds the `__supplier` field (None
once the value is cached), the `__value` field, and the `__lock` field
(held/free). -/

/-- Fields of a Lazy instance (src/koftipy/lazy.py lines 42-45).  `value`
starts at the Python None placeholder, modelled by an explicit initial
element of V passed to the constructor. -/
structure LazyState (σ : Type u) (E : Type v) (V : Type w) where
  supplier : Option (σ → (Except E V) × σ)
  value : V
  locked : Bool

/-- Lazy.of on a plain callable (src/koftipy/lazy.py lines 47-62): a fresh
instance holding the supplier, the None placeholder as value, and a free
lock.  `noneV` is the embedding of Python's None. -/
def mkLazy (sup : σ → (Except E V) × σ) (noneV : V) : LazyState σ E V :=
  ⟨some sup, noneV, false⟩

/-- Embeds a never-raising supplier. -/
def okSup (s : σ → V × σ) : σ → (Except E V) × σ :=
  fun ex => (Except.ok (s ex).1, (s ex).2)

/-- Lazy.is_computed (src/koftipy/lazy.py lines 86-93):
`return self.__supplier is None`. -/
def isComputed (st : LazyState σ E V) : Bool :=
  st.supplier.isNone

/-- Lazy.get (src/koftipy/lazy.py lines 64-75) together with
Lazy.__compute_value (lines 158-165), executed by a single thread so the
local snapshot taken on line 159 coincides with the field and the lock is
acquired at once and released on every exit path of the with-block (the
concurrent interleaving of these same lines is modelled separately below).
Returns the result (ok value or propagated exception), the successor
instance state, the successor supplier state, and the number of times the
supplier was invoked during the call.  On an exception the assignments of
lines 162-163 never execute, so `__supplier` stays set and `__value` keeps
its old content. -/
def lazyGet (st : LazyState σ E V) (ex : σ) :
    (Except E V) × LazyState σ E V × σ × Nat :=
  match st.supplier with
  | none => (.ok st.value, st, ex, 0)
  | some sup =>
    match sup ex with
    | (.ok v, ex2) => (.ok v, ⟨none, v, false⟩, ex2, 1)
    | (.error e, ex2) => (.error e, ⟨some sup, st.value, false⟩, ex2, 1)

/-- N sequential get() calls on the same instance: collects the N results
and the total number of supplier invocations. -/
def lazyGetN : Nat → LazyState σ E V → σ → List (Except E V) × LazyState σ E V × σ × Nat
  | 0, st, ex => ([], st, ex, 0)
  | n + 1, st, ex =>
    match lazyGet st ex with
    | (r, st2, ex2, c) =>
      match lazyGetN n st2 ex2 with
      | (rs, st3, ex3, c2) => (r :: rs, st3, ex3, c + c2)

/-- The `other` operand of Lazy.__eq__ (src/koftipy/lazy.py lines 147-153):
not a Lazy at all, the very same object (identity), or a distinct Lazy
instance. -/
inductive LazyEqArg (σ : Type u) (E : Type v) (V : Type w) where
  | notLazy
  | sameObject
  | distinct (b : LazyState σ E V)

/-- Lazy.__eq__ (src/koftipy/lazy.py lines 147-153): False for a non-Lazy,
True for the identical object (no forcing), otherwise
`self.get() == other.get()` — both sides are forced, in that order, and an
exception in either get propagates.  Returns the comparison outcome, the
receiver state after the call, the other instance's state after the call
(none when no distinct instance was involved), and the supplier state. -/
def lazyEq [DecidableEq V] (a : LazyState σ E V) (other : LazyEqArg σ E V)
    (ex : σ) :
    (Except E Bool) × LazyState σ E V × Option (LazyState σ E V) × σ :=
  match other with
  | .notLazy => (.ok false, a, none, ex)
  | .sameObject => (.ok true, a, none, ex)
  | .distinct b =>
    match lazyGet a ex with
    | (.error e, a2, ex2, _) => (.error e, a2, some b, ex2)
    | (.ok va, a2, ex2, _) =>
      match lazyGet b ex2 with
      | (.error e, b2, ex3, _) => (.error e, a2, some b2, ex3)
      | (.ok vb, b2, ex3, _) => (.ok (decide (va = vb)), a2, some b2, ex3)

/-- Lazy.__hash__ (src/koftipy/lazy.py lines 155-156):
`return hash(self.get())`, with `hashFn` the host hash function. -/
def lazyHash (hashFn : V → Int) (a : LazyState σ E V) (ex : σ) :
    (Except E Int) × LazyState σ E V × σ :=
  match lazyGet a ex with
  | (.error e, a2, ex2, _) => (.error e, a2, ex2)
  | (.ok v, a2, ex2, _) => (.ok (hashFn v), a2, ex2)

/-- A Lazy state whose pending supplier (if any) never raises. -/
def SupOk (st : LazyState σ E V) : Prop :=
  ∀ f, st.supplier = some f → ∀ e0, ∃ v e1, f e0 = (Except.ok v, e1)

/-! ## Lazy, concurrent semantics of get() / __compute_value
(src/koftipy/lazy.py lines 64-75 and 158-165; identically
src/koftipy/control/lazy.py lines 81-92 and 207-214)

Two threads call get() on one shared uncomputed instance.  Each Python
bytecode-level access to the shared fields is one atomic step (CPython GIL);
the lock is `threading.Lock` with blocking acquire.  The wrapped computation
is instantiated with an observable side-effect counter (spec section 8
concurrency property): its k-th execution returns k, so distinct executions
yield distinct results.

Program counter of a thread running get():
  0: `if self.__supplier is None` — fast path returns `self.__value`,
     else fall through to __compute_value            (lazy.py lines 72-75)
  1: `supplier = self.__supplier` — local snapshot   (line 159)
  2: `with self.__lock:` — blocking acquire          (line 160)
  3: `if supplier is not None:` test of the LOCAL snapshot; when it holds,
     call the supplier                               (lines 161-162)
  4: `self.__value = ...` store the produced value   (line 162)
  5: `self.__supplier = None`                        (line 163)
  6: read `self.__value` for the return              (line 165)
  7: release the lock on leaving the with-block, thread done
  8: done -/

/-- Thread-local state of one caller of get(). -/
structure LThread where
  pc : Nat
  snapshot : Bool
  tmp : Nat
  res : Option Nat
  deriving DecidableEq

/-- Shared configuration: the Lazy instance's fields (`supplierSet` models
`__supplier is not None`, `value` the `__value` field with 0 as the Python
None placeholder), the lock owner, the supplier's execution counter, and the
two threads. -/
structure LCfg where
  supplierSet : Bool
  value : Nat
  lock : Option (Fin 2)
  execCount : Nat
  thr : Fin 2 → LThread

/-- One atomic step of thread t; a thread blocked on the lock, or already
done, leaves the configuration unchanged. -/
def lazyStep (c : LCfg) (t : Fin 2) : LCfg :=
  let th := c.thr t
  let update := fun (th2 : LThread) => { c with thr := fun j => if j = t then th2 else c.thr j }
  match th.pc with
  | 0 =>
    if c.supplierSet then update { th with pc := 1 }
    else update { th with res := some c.value, pc := 8 }
  | 1 => update { th with snapshot := c.supplierSet, pc := 2 }
  | 2 =>
    match c.lock with
    | none => { c with lock := some t, thr := fun j => if j = t then { th with pc := 3 } else c.thr j }
    | some _ => c
  | 3 =>
    if th.snapshot then
      { c with execCount := c.execCount + 1,
               thr := fun j => if j = t then { th with tmp := c.execCount + 1, pc := 4 } else c.thr j }
    else update { th with pc := 6 }
  | 4 => { c with value := th.tmp, thr := fun j => if j = t then { th with pc := 5 } else c.thr j }
  | 5 => { c with supplierSet := false, thr := fun j => if j = t then { th with pc := 6 } else c.thr j }
  | 6 => update { th with res := some c.value, pc := 7 }
  | 7 => { c with lock := none, thr := fun j => if j = t then { th with pc := 8 } else c.thr j }
  | _ => c

/-- Run a schedule (sequence of thread ids to step). -/
def lazyRun (sched : List (Fin 2)) (c : LCfg) : LCfg :=
  sched.foldl lazyStep c

/-- Both threads about to call get() on one freshly constructed instance. -/
def lazyInitCfg : LCfg :=
  ⟨true, 0, none, 0, fun _ => ⟨0, false, 0, none⟩⟩

/-- The racing schedule: both threads pass the fast-path check and take
their local snapshot of `__supplier` while it is still set; thread 0 then
runs __compute_value to completion and releases the lock; thread 1 acquires
the lock afterwards. -/
def dclSchedule : List (Fin 2) :=
  [0, 0, 1, 1, 0, 0, 0, 0, 0, 0, 1, 1, 1, 1, 1, 1]

/-! ## Helper lemmas -/

/-- An already-consumed collection single iterator signals exhaustion on
every further advance. -/
theorem collSingleRun_consumed (x : V) : ∀ n, collSingleRun ⟨x, true⟩ n = none := by
  intro n
  induction n with
  | zero => simp [collSingleRun, collSingleNext]
  | succ m ih => simpa [collSingleRun, collSingleNext] using ih

/-- Behaviour of a single _ConcatIterator advance, relative to the elements
still to be delivered. -/
theorem concatNextAux_spec (r : List (List V)) :
    ∀ c : Option (List V), (c = none → r = []) →
    (concatNextAux c r).1 = (c.getD [] ++ r.flatten).head?
    ∧ cToList (concatNextAux c r).2 = (c.getD [] ++ r.flatten).tail
    ∧ ((concatNextAux c r).2.current = none → (concatNextAux c r).2.rest = []) := by
  induction r with
  | nil =>
    intro c hc
    match c with
    | none => simp [concatNextAux, cToList]
    | some [] => simp [concatNextAux, cToList]
    | some (x :: xs) => simp [concatNextAux, cToList]
  | cons h t ih =>
    intro c hc
    match c with
    | none => exact absurd (hc rfl) (by simp)
    | some (x :: xs) => simp [concatNextAux, cToList]
    | some [] =>
      have := ih (some h) (by simp)
      simpa [concatNextAux, cToList] using this

/-- The n-th element delivered by a _ConcatIterator is the n-th element of
the list of elements still to come. -/
theorem concatRun_spec : ∀ (n : Nat) (st : ConcatState V), ConcatInv st →
    concatRun st n = (cToList st).get? n := by
  intro n
  induction n with
  | zero =>
    intro st hinv
    have h := concatNextAux_spec st.rest st.current hinv
    rw [concatRun, List.get?_zero]
    exact h.1
  | succ m ih =>
    intro st hinv
    have h := concatNextAux_spec st.rest st.current hinv
    have htail : ∀ (l : List V) (k : Nat), l.tail.get? k = l.get? (k + 1) := by
      intro l k; cases l <;> simp
    calc concatRun st (m + 1) = concatRun (concatNext st).2 m := rfl
      _ = (cToList (concatNext st).2).get? m := ih _ h.2.2
      _ = ((cToList st).tail).get? m := by rw [show cToList (concatNext st).2 = (cToList st).tail from h.2.1]
      _ = (cToList st).get? (m + 1) := htail _ m

/-- Stack depth of one advance is at most two more than the number of queued
sources: the outer frame, at most one retry per queued source, and the final
raising retry frame on an exhaustion-terminated path. -/
theorem concatDepthAux_le : ∀ (r : List (List V)) (c : Option (List V)),
    concatDepthAux c r ≤ r.length + 2 := by
  intro r
  induction r with
  | nil => intro c; match c with
    | none => simp [concatDepthAux]
    | some [] => simp [concatDepthAux]
    | some (x :: xs) => simp [concatDepthAux]
  | cons h t ih =>
    intro c
    match c with
    | none => simp [concatDepthAux]
    | some (x :: xs) => simp [concatDepthAux]
    | some [] =>
      have := ih (some h)
      simp only [concatDepthAux, List.length_cons]
      omega

/-- Exact stack depth of one advance across a run of queued empty sources:
one frame per empty source plus the final raising retry frame. -/
theorem concatDepthAux_replicate :
    ∀ n : Nat, concatDepthAux (some []) (List.replicate n ([] : List V)) = n + 2 := by
  intro n
  induction n with
  | zero => simp [concatDepthAux]
  | succ m ih =>
    simp only [List.replicate_succ, concatDepthAux]
    omega

/-- get() on an already-computed instance returns the cached value, touches
nothing, and never invokes a supplier, over any number of calls. -/
theorem lazyGetN_computed : ∀ (m : Nat) (v : V) (l : Bool) (ex : σ),
    lazyGetN (E := E) m ⟨none, v, l⟩ ex
      = (List.replicate m (Except.ok v), ⟨none, v, l⟩, ex, 0) := by
  intro m
  induction m with
  | zero => intro v l ex; rfl
  | succ k ih => intro v l ex; simp [lazyGetN, lazyGet, ih, List.replicate_succ]

/-- get() on a state whose supplier never raises returns ok, and afterwards
the computation reference is cleared and the cached value is the returned
one. -/
theorem lazyGet_ok (st : LazyState σ E V) (hok : SupOk st) (ex : σ) :
    ∃ v st2 ex2 c, lazyGet st ex = (Except.ok v, st2, ex2, c)
      ∧ st2.supplier = none ∧ st2.value = v := by
  match hsup : st.supplier with
  | none =>
    refine ⟨st.value, st, ex, 0, ?_, hsup, rfl⟩
    simp [lazyGet, hsup]
  | some f =>
    obtain ⟨v, e1, hf⟩ := hok f hsup ex
    refine ⟨v, ⟨none, v, false⟩, e1, 1, ?_, rfl, rfl⟩
    simp [lazyGet, hsup, hf]

/-! ## Claim theorems -/

/-- C1: in the two-thread interleaving semantics of get()/__compute_value,
the schedule in which both threads snapshot `__supplier` before the winner
clears it makes the wrapped computation execute twice — the in-lock re-check
of line 161 tests the pre-lock local snapshot, not the field — and the two
callers observe different results (1 and 2 from the side-effect-counter
computation).  This refutes the claimed at-most-one execution / single
shared result. -/
theorem C1_lock_snapshot_recomputes :
    (lazyRun dclSchedule lazyInitCfg).execCount = 2
    ∧ ((lazyRun dclSchedule lazyInitCfg).thr 0).res = some 1
    ∧ ((lazyRun dclSchedule lazyInitCfg).thr 1).res = some 2
    ∧ (lazyRun dclSchedule lazyInitCfg).lock = none := by
  refine ⟨rfl, rfl, rfl, rfl⟩

/-- C2: N ≥ 2 sequential get() calls on a fresh Lazy invoke the supplier
exactly once in total, every call returns the value of that single
invocation, and is_computed flips from false to true at the first call. -/
theorem C2_sequential_get_memoizes (σ E V : Type) (s : σ → V × σ) (noneV : V)
    (ex : σ) (n : Nat) (hn : 2 ≤ n) :
    lazyGetN (E := E) n (mkLazy (okSup s) noneV) ex
      = (List.replicate n (Except.ok (s ex).1), ⟨none, (s ex).1, false⟩, (s ex).2, 1)
    ∧ isComputed (mkLazy (E := E) (okSup s) noneV) = false
    ∧ isComputed (lazyGet (mkLazy (E := E) (okSup s) noneV) ex).2.1 = true := by
  obtain ⟨m, rfl⟩ : ∃ m, n = m + 1 := ⟨n - 1, by omega⟩
  refine ⟨?_, rfl, rfl⟩
  have h1 : lazyGet (E := E) (mkLazy (okSup s) noneV) ex
      = (Except.ok (s ex).1, ⟨none, (s ex).1, false⟩, (s ex).2, 1) := rfl
  simp [lazyGetN, h1, lazyGetN_computed, List.replicate_succ]

/-- C2 witness at a concrete supplier. -/
theorem C2_sequential_get_memoizes_witness :
    lazyGetN (E := String) 2 (mkLazy (okSup (fun k : Nat => (k + 5, k + 1))) 0) 0
      = ([Except.ok 5, Except.ok 5], ⟨none, 5, false⟩, 1, 1)
    ∧ isComputed (mkLazy (E := String) (okSup (fun k : Nat => (k + 5, k + 1))) 0) = false
    ∧ isComputed (lazyGet (mkLazy (E := String) (okSup (fun k : Nat => (k + 5, k + 1))) 0) 0).2.1 = true :=
  C2_sequential_get_memoizes Nat String Nat (fun k => (k + 5, k + 1)) 0 0 2 (by omega)

/-- C3: when the supplier raises, get() propagates the same exception, the
lock ends up released, the supplier reference stays set (is_computed stays
false), and a subsequent get() invokes the supplier again and caches its
result — no failure is cached. -/
theorem C3_failure_keeps_supplier (σ E V : Type) (st : LazyState σ E V)
    (f : σ → (Except E V) × σ) (hsup : st.supplier = some f)
    (e : E) (ex ex2 : σ) (hf : f ex = (Except.error e, ex2)) :
    lazyGet st ex = (Except.error e, ⟨some f, st.value, false⟩, ex2, 1)
    ∧ isComputed (lazyGet st ex).2.1 = false
    ∧ (lazyGet st ex).2.1.locked = false
    ∧ (∀ ex3 v ex4, f ex3 = (Except.ok v, ex4) →
        lazyGet (lazyGet st ex).2.1 ex3 = (Except.ok v, ⟨none, v, false⟩, ex4, 1)) := by
  have h1 : lazyGet st ex = (Except.error e, ⟨some f, st.value, false⟩, ex2, 1) := by
    simp [lazyGet, hsup, hf]
  refine ⟨h1, by simp [h1, isComputed], by simp [h1], ?_⟩
  intro ex3 v ex4 hf2
  rw [h1]
  simp [lazyGet, hf2]

/-- C3 witness: a supplier that raises on its first call and succeeds on the
retry. -/
theorem C3_failure_keeps_supplier_witness :
    lazyGet (⟨some (fun k : Nat => if k = 0 then (Except.error "boom", 1) else (Except.ok 7, k + 1)), 0, false⟩ : LazyState Nat String Nat) 0
      = (Except.error "boom", ⟨some (fun k : Nat => if k = 0 then (Except.error "boom", 1) else (Except.ok 7, k + 1)), 0, false⟩, 1, 1)
    ∧ isComputed (lazyGet (⟨some (fun k : Nat => if k = 0 then (Except.error "boom", 1) else (Except.ok 7, k + 1)), 0, false⟩ : LazyState Nat String Nat) 0).2.1 = false
    ∧ (lazyGet (⟨some (fun k : Nat => if k = 0 then (Except.error "boom", 1) else (Except.ok 7, k + 1)), 0, false⟩ : LazyState Nat String Nat) 0).2.1.locked = false
    ∧ (∀ ex3 v ex4,
        (fun k : Nat => if k = 0 then (Except.error "boom", 1) else (Except.ok 7, k + 1)) ex3 = (Except.ok v, ex4) →
        lazyGet (lazyGet (⟨some (fun k : Nat => if k = 0 then (Except.error "boom", 1) else (Except.ok 7, k + 1)), 0, false⟩ : LazyState Nat String Nat) 0).2.1 ex3
          = (Except.ok v, ⟨none, v, false⟩, ex4, 1)) :=
  C3_failure_keeps_supplier Nat String Nat _ _ rfl "boom" 0 1 rfl

/-- C4: draining a concatenation of k sub-cursors yields exactly the
concatenation of the sources in order — the n-th advance returns the n-th
element of the flattened sources, and every advance past the end signals
exhaustion, forever. -/
theorem C4_concat_drains_in_order (V : Type) (ls : List (List V)) (n : Nat) :
    concatRun (mkConcat ls) n = ls.flatten.get? n := by
  have hinv : ConcatInv (mkConcat ls) := by
    cases ls <;> simp [mkConcat, ConcatInv]
  have hlist : cToList (mkConcat ls) = ls.flatten := by
    cases ls <;> simp [mkConcat, cToList]
  rw [concatRun_spec n _ hinv, hlist]

/-- C5 counterexample: the retry of _ConcatIterator.__next__ is the
recursive call `return next(self)` (line 230), so the call-stack depth of a
single advance is NOT bounded: over concatenations of n empty sources it
exceeds every bound. -/
theorem C5_depth_unbounded :
    ¬ ∃ B : Nat, ∀ n : Nat,
      concatAdvanceDepth (mkConcat (List.replicate n ([] : List Nat))) ≤ B := by
  rintro ⟨B, hB⟩
  have h := hB (B + 2)
  have heq : concatAdvanceDepth (mkConcat (List.replicate (B + 2) ([] : List Nat))) = B + 3 := by
    rw [List.replicate_succ]
    show concatDepthAux (some []) (List.replicate (B + 1) ([] : List Nat)) = B + 3
    exact concatDepthAux_replicate (B + 1)
  omega

/-- C5 amended: a single advance retries at most once per remaining queued
source plus one final retry that signals exhaustion — the number of nested
__next__ frames is at most 2 + the number of queued sources — but the retry
is recursive, not an iterative loop: on a concatenation of n+1 empty sources
the frame count is exactly n+2, growing linearly with the chain of empty
sources. -/
theorem C5_retry_bounded_by_sources (V : Type) (c : Option (List V))
    (r : List (List V)) (n : Nat) :
    concatDepthAux c r ≤ r.length + 2
    ∧ concatAdvanceDepth (mkConcat (List.replicate (n + 1) ([] : List V))) = n + 2 := by
  refine ⟨concatDepthAux_le r c, ?_⟩
  rw [List.replicate_succ]
  exact concatDepthAux_replicate n

/-- C6: the collection _SingleIterator delivers x on the first advance and
exhaustion forever after, as claimed; but the top-level module's
_SingleIterator (src/koftipy/iterator.py, also cited by the claim) has no
consumed flag — its second advance returns 42 again instead of raising
StopIteration. -/
theorem C6_single_first_then_exhausted :
    (∀ (V : Type) (x : V) (n : Nat),
      collSingleRun (mkCollSingle x) n = if n = 0 then some x else none)
    ∧ rootSingleRun (⟨42⟩ : RootSingle Nat) 0 = some 42
    ∧ rootSingleRun (⟨42⟩ : RootSingle Nat) 1 = some 42 := by
  refine ⟨?_, rfl, rfl⟩
  intro V x n
  match n with
  | 0 => rfl
  | m + 1 =>
    simp only [collSingleRun, mkCollSingle, collSingleNext]
    simpa using collSingleRun_consumed x m

/-- C7 counterexample: Option.filter on a Some whose value passes the
predicate returns the receiver object itself (`return self`), which is
neither a newly constructed instance nor the Nothing singleton. -/
theorem C7_filter_returns_receiver :
    ¬ IsFreshOrNothing (optionFilter (OptVal.some (1 : Nat)) (fun _ => true)).1 := by
  intro h
  rcases h with ⟨o, ho⟩ | ho <;> simp [optionFilter, IsFreshOrNothing] at ho

/-- C7 amended: the cited combinators never mutate the receiver, but not
every result is newly constructed: filter returns the receiver itself or the
Nothing singleton; map returns a newly constructed Some or the Nothing
singleton; or_else returns the receiver itself, an Option object supplied as
(or produced by) the default argument, or a newly constructed Some wrapping
a non-Option default. -/
theorem C7_combinators_pure (V U : Type) (o : OptVal V) (p : V → Bool)
    (f : V → U) (d : OrElseArg V) :
    (optionFilter o p).2 = o ∧ (optionMap o f).2 = o ∧ (optionOrElse o d).2 = o
    ∧ ((optionFilter o p).1 = OptionRet.selfRef ∨ (optionFilter o p).1 = OptionRet.nothingRef)
    ∧ ((optionMap o f).1 = OptionRet.nothingRef
        ∨ ∃ u, (optionMap o f).1 = OptionRet.fresh (OptVal.some u))
    ∧ ((optionOrElse o d).1 = OptionRet.selfRef
        ∨ (∃ g, (optionOrElse o d).1 = OptionRet.given g)
        ∨ ∃ w, (optionOrElse o d).1 = OptionRet.fresh (OptVal.some w)) := by
  refine ⟨?_, ?_, ?_, ?_, ?_, ?_⟩
  · cases o with
    | some v => by_cases hp : p v <;> simp [optionFilter, hp]
    | nothing => simp [optionFilter]
  · cases o <;> simp [optionMap]
  · cases o <;> cases d <;> simp [optionOrElse]
  · cases o with
    | some v => by_cases hp : p v <;> simp [optionFilter, hp]
    | nothing => simp [optionFilter]
  · cases o <;> simp [optionMap]
  · cases o <;> cases d <;> simp [optionOrElse]

/-- C8: Option.get returns the payload of every Some — including a Some of
the host null-equivalent, since the payload type is arbitrary — and on
Nothing fails with exactly the ValueError("No value defined") that realizes
the spec's EmptyValueError; no other case raises. -/
theorem C8_option_get (V : Type) (v : V) :
    optionGet (OptVal.some v) = Except.ok v
    ∧ optionGet (OptVal.nothing : OptVal V)
        = Except.error (PyErr.valueError "No value defined") :=
  ⟨rfl, rfl⟩

/-- C9: comparing two distinct Lazy instances forces both (their computation
references are cleared), the comparison is true exactly when the two
computed values are equal, an identity comparison short-circuits to True
without touching either state, a non-Lazy operand compares False, and the
hash is the hash of the computed value (forcing the instance). -/
theorem C9_eq_hash_force (σ E V : Type) [DecidableEq V]
    (a b : LazyState σ E V) (ex : σ) (ha : SupOk a) (hb : SupOk b)
    (hashFn : V → Int) :
    (∃ ra a2 b2 ex3, lazyEq a (LazyEqArg.distinct b) ex = (Except.ok ra, a2, some b2, ex3)
      ∧ isComputed a2 = true ∧ isComputed b2 = true
      ∧ (ra = true ↔ a2.value = b2.value))
    ∧ lazyEq a LazyEqArg.sameObject ex = (Except.ok true, a, none, ex)
    ∧ lazyEq a LazyEqArg.notLazy ex = (Except.ok false, a, none, ex)
    ∧ (∃ hv a2 ex2, lazyHash hashFn a ex = (Except.ok hv, a2, ex2)
      ∧ isComputed a2 = true ∧ hv = hashFn a2.value) := by
  obtain ⟨va, a2, exA, cA, hga, hsa, hva⟩ := lazyGet_ok a ha ex
  obtain ⟨vb, b2, exB, cB, hgb, hsb, hvb⟩ := lazyGet_ok b hb exA
  refine ⟨⟨decide (va = vb), a2, b2, exB, ?_, ?_, ?_, ?_⟩, rfl, rfl,
          ⟨hashFn va, a2, exA, ?_, ?_, ?_⟩⟩
  · simp [lazyEq, hga, hgb]
  · simp [isComputed, hsa]
  · simp [isComputed, hsb]
  · simp [hva, hvb]
  · simp [lazyHash, hga]
  · simp [isComputed, hsa]
  · simp [hva]

/-- C9 witness at two concrete uncomputed instances with counter-free
suppliers producing 3 and 3. -/
theorem C9_eq_hash_force_witness :
    (∃ ra a2 b2 ex3,
      lazyEq (mkLazy (E := String) (okSup (fun k : Nat => (3, k))) 0)
        (LazyEqArg.distinct (mkLazy (okSup (fun k : Nat => (3, k + 1))) 0)) 0
        = (Except.ok ra, a2, some b2, ex3)
      ∧ isComputed a2 = true ∧ isComputed b2 = true
      ∧ (ra = true ↔ a2.value = b2.value))
    ∧ lazyEq (mkLazy (E := String) (okSup (fun k : Nat => (3, k))) 0)
        LazyEqArg.sameObject 0
        = (Except.ok true, mkLazy (okSup (fun k : Nat => (3, k))) 0, none, 0)
    ∧ lazyEq (mkLazy (E := String) (okSup (fun k : Nat => (3, k))) 0)
        LazyEqArg.notLazy 0
        = (Except.ok false, mkLazy (okSup (fun k : Nat => (3, k))) 0, none, 0)
    ∧ (∃ hv a2 ex2,
      lazyHash (fun v : Nat => (v : Int))
        (mkLazy (E := String) (okSup (fun k : Nat => (3, k))) 0) 0
        = (Except.ok hv, a2, ex2)
      ∧ isComputed a2 = true ∧ hv = (a2.value : Int)) :=
  C9_eq_hash_force Nat String Nat
    (mkLazy (okSup (fun k => (3, k))) 0)
    (mkLazy (okSup (fun k => (3, k + 1))) 0) 0
    (by intro f hf e0
        injection hf with h
        exact h ▸ ⟨3, e0, rfl⟩)
    (by intro f hf e0
        injection hf with h
        exact h ▸ ⟨3, e0 + 1, rfl⟩)
    (fun v => (v : Int))

/-- C10: Predicate.of returns an argument that is already a Predicate
unchanged, so wrapping is idempotent: of(of(f)) and of(f) coincide for every
bare callable f. -/
theorem C10_predicate_of_idempotent (V : Type) (p : PredTree V) (f : V → Bool) :
    predicateOf (PredArg.pred p) = p
    ∧ predicateOf (PredArg.pred (predicateOf (PredArg.fn f)))
        = predicateOf (PredArg.fn f) :=
  ⟨rfl, rfl⟩

end Koftipy
